/-
Verification of the GitHub Copilot Home Assistant integration
(custom_components/github_copilot and custom_components/copilot_assistant).

The Python source is shallowly embedded: each relevant function is
translated to an executable Lean definition; wall-clock time is passed
explicitly as an integer timestamp, network and SDK effects are passed
as explicit outcome values, and mutable object state is threaded as
explicit state values.  Exceptions become `Except` results; `except`
clauses that swallow exceptions become total functions.
-/
import Mathlib

set_option autoImplicit false

namespace Copilot

/-! ## Association-list maps

Python `dict` state (`self._sessions`, `self._session_last_used`) is
modelled as an association list with unique-key semantics: `ainsert`
overwrites, `aerase` removes the key, `alookup` finds the entry. -/

def alookup {α : Type} : List (String × α) → String → Option α
  | [], _ => none
  | p :: t, k => if p.1 = k then some p.2 else alookup t k

def aerase {α : Type} : List (String × α) → String → List (String × α)
  | [], _ => []
  | p :: t, k => if p.1 = k then aerase t k else p :: aerase t k

def ainsert {α : Type} (l : List (String × α)) (k : String) (v : α) :
    List (String × α) :=
  (k, v) :: aerase l k

theorem alookup_aerase {α : Type} (l : List (String × α)) (k k2 : String) :
    alookup (aerase l k) k2 = if k2 = k then none else alookup l k2 := by
  induction l with
  | nil => simp [alookup, aerase]
  | cons p t ih =>
    simp only [aerase, alookup]
    by_cases hp : p.1 = k
    · rw [if_pos hp, ih]
      by_cases hq : k2 = k
      · simp [hq]
      · have hne : p.1 ≠ k2 := fun hc => hq (by rw [← hc, hp])
        simp [hq, hne]
    · rw [if_neg hp]
      simp only [alookup]
      by_cases hq : p.1 = k2
      · have hke : k2 ≠ k := fun hc => hp (by rw [hq, hc])
        simp [hq, hke]
      · simp [hq, ih]

theorem alookup_aerase_self {α : Type} (l : List (String × α)) (k : String) :
    alookup (aerase l k) k = none := by
  simp [alookup_aerase]

theorem alookup_aerase_ne {α : Type} (l : List (String × α)) (k k2 : String)
    (h : k2 ≠ k) : alookup (aerase l k) k2 = alookup l k2 := by
  simp [alookup_aerase, h]

theorem alookup_ainsert_self {α : Type} (l : List (String × α)) (k : String)
    (v : α) : alookup (ainsert l k v) k = some v := by
  simp [alookup, ainsert]

/-! ## Executable string helpers

Python's `str.strip()`, `in` and `startswith` are modelled on the
character list of the string so that concrete instances evaluate by
kernel reduction. -/

/-- Python `str.strip()`: remove leading and trailing whitespace. -/
def pyStrip (s : String) : String :=
  ⟨((s.data.dropWhile Char.isWhitespace).reverse.dropWhile
      Char.isWhitespace).reverse⟩

def charsBegin : List Char → List Char → Bool
  | _, [] => true
  | [], _ :: _ => false
  | a :: as, b :: bs => a == b && charsBegin as bs

/-- `s.startswith(p)` on the underlying character lists. -/
def strBeginsWith (s p : String) : Bool := charsBegin s.data p.data

/-- `String.mk (s.data.drop n)`: drop the first `n` characters. -/
def strDropChars (s : String) (n : Nat) : String := ⟨s.data.drop n⟩

namespace Auth

/-! ## auth.py : `CopilotToken`, `get_copilot_token`, `poll_for_token`

Timestamps (`time.time()`) are modelled as integers; the claims only
involve comparisons against integer expiry bounds. -/

structure GitHubToken where
  access_token : String
  token_type : String
  scope : String
  deriving DecidableEq

structure CopilotToken where
  token : String
  expires_at : Int
  refresh_in : Int
  deriving DecidableEq

/-- `CopilotToken.is_expired`: `time.time() >= (self.expires_at - 60)`. -/
def CopilotToken.isExpired (ct : CopilotToken) (now : Int) : Bool :=
  decide (ct.expires_at - 60 ≤ now)

/-- Authenticator state: the stored GitHub OAuth token and the cached
Copilot token (`self._github_token`, `self._copilot_token`). -/
structure AuthState where
  githubToken : Option GitHubToken
  copilotToken : Option CopilotToken
  deriving DecidableEq

/-- Outcome of the HTTP `GET` to the Copilot token exchange endpoint. -/
inductive FetchOutcome where
  | ok (token : String) (expiresAt : Int) (refreshIn : Option Int)
  | httpStatus (status : Nat)
  | netFail
  deriving DecidableEq

/-- The token-exchange block of `get_copilot_token` (the `GET` to the
Copilot token endpoint plus status handling and caching of the fresh
token).  The `Nat` component counts token exchanges performed: this block
always performs exactly one. -/
def exchangeCopilotToken (st : AuthState) (fetch : FetchOutcome) :
    Except String (CopilotToken × AuthState × Nat) :=
  match fetch with
  | .ok t e r =>
    let fresh : CopilotToken := ⟨t, e, r.getD (e - 300)⟩
    .ok (fresh, ⟨st.githubToken, some fresh⟩, 1)
  | .httpStatus s =>
    if s = 401 then
      .error "GitHub token is invalid or expired. Please re-authenticate."
    else if s = 403 then
      .error "Access to GitHub Copilot denied. Please ensure you have an active Copilot subscription."
    else
      .error ("Failed to get Copilot token: HTTP " ++ toString s)
  | .netFail => .error "Network error"

/-- `GitHubCopilotAuth.get_copilot_token`.  Returns the token, the updated
authenticator state, and the number of token exchanges performed (0 when
the cached token is served, 1 when a fresh token is fetched). -/
def get_copilot_token (st : AuthState) (now : Int) (arg : Option String)
    (fetch : FetchOutcome) : Except String (CopilotToken × AuthState × Nat) :=
  let token : Option String :=
    match arg with
    | some t => some t
    | none => st.githubToken.map (fun g => g.access_token)
  match token with
  | none => .error "No GitHub token available"
  | some _ =>
    match st.copilotToken with
    | some ct =>
      if ct.isExpired now then exchangeCopilotToken st fetch
      else .ok (ct, st, 0)
    | none => exchangeCopilotToken st fetch

/-! ### Device-flow polling (`poll_for_token`)

Each loop iteration sleeps `current_interval` seconds and issues one
`POST` to the token endpoint; the sequence of parsed responses (or
`aiohttp.ClientError` failures) is passed in as a list, one entry per
iteration.  Elapsed wall-clock time advances by the interval in effect
when the iteration sleeps. -/

/-- One parsed response of the polling endpoint.  `errResp code desc newInterval`
models a JSON body with an `error` field, its optional `error_description`,
and the optional `interval` field used by `slow_down`; `netFail` models an
`aiohttp.ClientError` raised while performing the request. -/
inductive PollResponse where
  | success (accessToken : String) (tokenType : String) (scope : String)
  | errResp (code : String) (desc : Option String) (newInterval : Option Nat)
  | netFail
  deriving DecidableEq

inductive PollError where
  | timeout
  | denied
  | authFail (msg : String)
  deriving DecidableEq

/-- How one response is handled inside the `while` loop:
either the loop continues (with the possibly-updated interval and a flag
recording an `authorization_pending` cycle), or it terminates. -/
inductive StepAction where
  | cont (newInterval : Nat) (pending : Bool)
  | done (res : Except PollError GitHubToken)

/-- The response-handling body of `poll_for_token`'s loop. -/
def pollStep (interval : Nat) : PollResponse → StepAction
  | .success tok ty sc => .done (.ok ⟨tok, ty, sc⟩)
  | .netFail => .cont interval false
  | .errResp code desc newInt =>
    if code = "authorization_pending" then .cont interval true
    else if code = "slow_down" then .cont (newInt.getD (interval + 5)) false
    else if code = "expired_token" then
      .done (.error .timeout)
    else if code = "access_denied" then
      .done (.error .denied)
    else
      .done (.error (.authFail ("Authentication error: " ++ desc.getD code)))

/-- The `while (time.time() - start_time) < expires_in` loop of
`poll_for_token`.  Returns `none` when the supplied response sequence is
exhausted before the loop terminates, otherwise the loop's outcome
paired with the number of `authorization_pending` cycles taken. -/
def pollLoop (expiresIn : Nat) :
    List PollResponse → Nat → Nat → Option (Except PollError GitHubToken) × Nat
  | rs, elapsed, interval =>
    if expiresIn ≤ elapsed then (some (.error .timeout), 0)
    else
      match rs with
      | [] => (none, 0)
      | r :: rest =>
        match pollStep interval r with
        | .done res => (some res, 0)
        | .cont newInt pending =>
          let out := pollLoop expiresIn rest (elapsed + interval) newInt
          (out.1, if pending then out.2 + 1 else out.2)

/-! ### Log lines emitted by the polling loop

`poll_for_token` runs `LOGGER.debug("Token poll response: %s", result)` on
every parsed response before inspecting it, logs the new interval on
`slow_down`, and logs `LOGGER.warning("Network error during token poll: %s", err)`
on an `aiohttp.ClientError`.  `renderPollResult` models the `%s`
interpolation of the parsed JSON dict: the rendered text contains every
key and value of the dict, in particular the `access_token` value of a
successful response. -/
def renderPollResult : PollResponse → String
  | .success tok ty sc =>
    "access_token=" ++ tok ++ ", token_type=" ++ ty ++ ", scope=" ++ sc
  | .errResp code desc _ =>
    "error=" ++ code ++
      (match desc with
       | some d => ", error_description=" ++ d
       | none => "")
  | .netFail => ""

/-- The log lines produced by one run of `poll_for_token`'s loop over the
given response sequence. -/
def pollLogLines (expiresIn : Nat) :
    List PollResponse → Nat → Nat → List String
  | rs, elapsed, interval =>
    if expiresIn ≤ elapsed then []
    else
      match rs with
      | [] => []
      | .netFail :: rest =>
        ("Network error during token poll: ClientError") ::
          pollLogLines expiresIn rest (elapsed + interval) interval
      | r :: rest =>
        let first := "Token poll response: " ++ renderPollResult r
        match pollStep interval r with
        | .done _ => [first]
        | .cont newInt _ =>
          let extra : List String :=
            match r with
            | .errResp code _ _ =>
              if code = "slow_down" then
                ["Slowing down polling to " ++ toString newInt ++ " seconds"]
              else []
            | _ => []
          first :: (extra ++ pollLogLines expiresIn rest (elapsed + interval) newInt)

end Auth

namespace Conv

/-! ## conversation.py : `GitHubCopilotConversationEntity`

The entity's per-conversation maps `self.sessions` (conversation id →
session) and `self._session_last_used` (conversation id → timestamp) are
threaded as a `ConvState`.  Sessions are identified by their session id
string.  The API client's behaviour is passed in as explicit outcomes:
`endOk sid` tells whether `client.async_end_session(sid)` succeeds during
the sweep, `createOutcome` is the result of `client.async_create_session()`,
and `SendOutcome` the result of `client.async_send_prompt(...)`. -/

/-- The three typed exception classes of the API client
(`GitHubCopilotApiClientAuthenticationError`,
`GitHubCopilotApiClientCommunicationError`, `GitHubCopilotApiClientError`). -/
inductive ErrKind where
  | auth
  | comm
  | generic
  deriving DecidableEq

structure ConvState where
  sessions : List (String × String)
  lastUsed : List (String × Int)
  deriving DecidableEq

/-- `self._session_timeout = 3600`. -/
def SESSION_TIMEOUT : Int := 3600

/-- One iteration of the sweep loop: `async_end_session` succeeds → pop
the id from both maps; it raises → the `except` clause logs and keeps the
entry. -/
def sweepStep (endOk : String → Bool) (acc : ConvState) (sid : String) :
    ConvState :=
  if endOk sid then ⟨aerase acc.sessions sid, aerase acc.lastUsed sid⟩
  else acc

/-- The ids considered expired by the sweep:
`current_time - last_used > self._session_timeout`. -/
def expiredIds (now : Int) (st : ConvState) : List String :=
  (st.lastUsed.filter
    (fun p => decide (SESSION_TIMEOUT < now - p.2))).map (fun p => p.1)

/-- `GitHubCopilotConversationEntity._cleanup_expired_sessions`.
For each expired id the client's `async_end_session` is attempted; only on
success are both map entries popped — the `except Exception` clause keeps
the entry and continues, so the function is total (no exception escapes).
`clientOk` models whether `self.entry.runtime_data.client` is accessible
(the `AttributeError` branch returns without touching the maps). -/
def cleanupExpiredSessions (clientOk : Bool) (endOk : String → Bool)
    (now : Int) (st : ConvState) : ConvState :=
  if (expiredIds now st).isEmpty then st
  else if !clientOk then st
  else (expiredIds now st).foldl (sweepStep endOk) st

/-- Result of `_ensure_session`: the session id handed to the turn (if
any), the error branch taken (if any), and the updated maps. -/
structure EnsureResult where
  session : Option String
  errKind : Option ErrKind
  state : ConvState

/-- `GitHubCopilotConversationEntity._ensure_session`: sweep expired
sessions, then reuse the stored session for the conversation id (touching
its last-used timestamp) or create a fresh one. -/
def ensureSession (clientOk : Bool) (endOk : String → Bool) (now : Int)
    (cid : String) (createOutcome : Except ErrKind String) (st : ConvState) :
    EnsureResult :=
  let st1 := cleanupExpiredSessions clientOk endOk now st
  match alookup st1.sessions cid with
  | some sid =>
    ⟨some sid, none, ⟨st1.sessions, ainsert st1.lastUsed cid now⟩⟩
  | none =>
    match createOutcome with
    | .ok sid =>
      ⟨some sid, none,
        ⟨ainsert st1.sessions cid sid, ainsert st1.lastUsed cid now⟩⟩
    | .error k => ⟨none, some k, st1⟩

/-- Result of `client.async_send_prompt` as seen by `async_process`:
a reply text, one of the three typed client exceptions, or an
unclassified exception (the final `except Exception` branch). -/
inductive SendOutcome where
  | ok (text : String)
  | apiErr (k : ErrKind)
  | unexpected

/-- What `async_process` returns: a spoken reply, a spoken error message
tagged with the exception class that produced it, or the catch-all
message for unclassified exceptions. -/
inductive TurnResult where
  | reply (text : String)
  | errorReply (k : ErrKind)
  | unexpectedErrorReply

structure TurnOutcome where
  state : ConvState
  result : TurnResult

/-- `GitHubCopilotConversationEntity.async_process` (session phase plus
prompt phase).  On any of the three typed client exceptions from
`async_send_prompt`, both map entries for the conversation id are popped;
the unclassified `except Exception` branch leaves the maps unchanged. -/
def asyncProcess (clientOk : Bool) (endOk : String → Bool) (now : Int)
    (cid : String) (createOutcome : Except ErrKind String)
    (send : SendOutcome) (st : ConvState) : TurnOutcome :=
  let er := ensureSession clientOk endOk now cid createOutcome st
  match er.errKind with
  | some k => ⟨er.state, .errorReply k⟩
  | none =>
    match er.session with
    | none => ⟨er.state, .unexpectedErrorReply⟩
    | some _ =>
      match send with
      | .ok text => ⟨er.state, .reply text⟩
      | .apiErr k =>
        ⟨⟨aerase er.state.sessions cid, aerase er.state.lastUsed cid⟩,
          .errorReply k⟩
      | .unexpected => ⟨er.state, .unexpectedErrorReply⟩

end Conv

namespace Api

open Conv (ErrKind)

/-! ## api.py : `GitHubCopilotApiClient`

Python exceptions reaching the client's `except` clauses, with the
relevant subclass relations: `ConnectionRefusedError` is a subclass of
`ConnectionError`; `FileNotFoundError` and `PermissionError` are `OSError`
subclasses unrelated to `TimeoutError`, `ValueError` and
`ConnectionError`. -/
inductive PyExc where
  | timeoutExc
  | valueExc
  | connectionExc
  | connectionRefusedExc
  | fileNotFoundExc
  | permissionExc
  | otherExc (name : String)
  deriving DecidableEq

def isTimeoutError : PyExc → Bool
  | .timeoutExc => true
  | _ => false

def isValueError : PyExc → Bool
  | .valueExc => true
  | _ => false

def isConnectionError : PyExc → Bool
  | .connectionExc => true
  | .connectionRefusedExc => true
  | _ => false

def isFileNotFoundError : PyExc → Bool
  | .fileNotFoundExc => true
  | _ => false

def isPermissionError : PyExc → Bool
  | .permissionExc => true
  | _ => false

def isConnectionRefusedError : PyExc → Bool
  | .connectionRefusedExc => true
  | _ => false

/-- The exception ladder of `async_create_session` (`except TimeoutError`
→ CommunicationError, `except ValueError` → generic client error,
`except Exception` → generic client error). -/
def createSessionErrorCat (e : PyExc) : ErrKind :=
  if isTimeoutError e then .comm
  else if isValueError e then .generic
  else .generic

/-- The exception ladder of `async_send_prompt` (`except TimeoutError` and
`except ConnectionError` → CommunicationError, `except Exception` →
generic client error). -/
def sendPromptErrorCat (e : PyExc) : ErrKind :=
  if isTimeoutError e then .comm
  else if isConnectionError e then .comm
  else .generic

/-- The exception ladder around `client.start()` in `_ensure_client`
(`FileNotFoundError`, `PermissionError`, `ConnectionRefusedError`, and the
final `except Exception` all raise CommunicationError). -/
def startClientErrorCat (e : PyExc) : ErrKind :=
  if isFileNotFoundError e then .comm
  else if isPermissionError e then .comm
  else if isConnectionRefusedError e then .comm
  else .comm

/-- Every failure point of the stateful client (`_ensure_client`,
`async_create_session`, `async_send_prompt`). -/
inductive StatefulFault where
  | cliNotInstalled
  | startExc (e : PyExc)
  | authStatusExc (e : PyExc)
  | notAuthenticated
  | createExc (e : PyExc)
  | sendExc (e : PyExc)
  | noReplyEvent
  | emptyContent
  | emptyPrompt
  | sessionNotFound

/-- The exception class raised at each failure point, transcribed from the
`raise` sites of api.py. -/
def classifyFault : StatefulFault → ErrKind
  | .cliNotInstalled => .comm
  | .startExc e => startClientErrorCat e
  | .authStatusExc _ => .auth
  | .notAuthenticated => .auth
  | .createExc e => createSessionErrorCat e
  | .sendExc e => sendPromptErrorCat e
  | .noReplyEvent => .generic
  | .emptyContent => .generic
  | .emptyPrompt => .generic
  | .sessionNotFound => .generic

/-! ### `async_end_session` (sessions keyed by session id) -/

/-- `GitHubCopilotApiClient.async_end_session`: pop the session from the
map (under the session lock); a missing id returns immediately.  When the
popped session's `destroy()` raises (`destroyFails`), a generic client
error is raised — but the entry has already been popped. -/
def asyncEndSession (sessions : List (String × String)) (sid : String)
    (destroyFails : Bool) :
    List (String × String) × Except ErrKind Unit :=
  match alookup sessions sid with
  | none => (sessions, .ok ())
  | some _ =>
    let remaining := aerase sessions sid
    if destroyFails then (remaining, .error .generic)
    else (remaining, .ok ())

/-! ### `_check_cli_installed` -/

/-- `CliInstallationStatus` of api.py. -/
structure CliInstallationStatus where
  cli_installed : Bool
  cli_path : Option String
  error_details : String
  suggestions : List String
  deriving DecidableEq

/-- The filesystem / environment facts `_check_cli_installed` consults:
the configured `cli_path` client option, the `COPILOT_CLI_PATH`
environment variable, `shutil.which`, and `Path` predicates. -/
structure CliEnv where
  cliPathOption : Option String
  envCopilotCliPath : Option String
  whichResult : String → Option String
  pathExists : String → Bool
  pathIsFile : String → Bool
  pathIsExec : String → Bool
  home : String

/-- Candidate normalization: `candidate.strip()` kept only when
non-empty. -/
def strippedNonempty (o : Option String) : Option String :=
  o.bind (fun s => let t := pyStrip s; if t = "" then none else some t)

/-- `Path(cli_to_check).expanduser()` (POSIX). -/
def expandUser (env : CliEnv) (s : String) : String :=
  if s = "~" then env.home
  else if strBeginsWith s "~/" then env.home ++ strDropChars s 1
  else s

def isAbsolutePath (s : String) : Bool := strBeginsWith s "/"

/-- `os.sep in cli_to_check` (POSIX: `os.sep = "/"`, `os.altsep = None`). -/
def containsSep (s : String) : Bool := s.data.contains '/'

/-- The candidate actually checked: the first non-empty entry of
`[cli_path option, COPILOT_CLI_PATH, "copilot"]`. -/
def cliToCheck (env : CliEnv) : String :=
  (([env.cliPathOption, env.envCopilotCliPath,
     some "copilot"].filterMap strippedNonempty).headD "copilot")

/-- Whether an explicit candidate (option or environment variable) was
provided. -/
def explicitRequested (env : CliEnv) : Bool :=
  (([env.cliPathOption, env.envCopilotCliPath].filterMap
    strippedNonempty).head?).isSome

/-- The `explicit_path` computed by `_check_cli_installed`: the expanded
candidate, when it is not the bare name `copilot` and looks like a path. -/
def explicitPathOf (env : CliEnv) : Option String :=
  let c := cliToCheck env
  let cand := expandUser env c
  if c = "copilot" then none
  else if isAbsolutePath cand || containsSep c then some cand
  else none

def baseSuggestions : List String :=
  ["Install the GitHub Copilot CLI: https://docs.github.com/copilot/cli",
   "Ensure the CLI is in your PATH or set COPILOT_CLI_PATH to its full path."]

def explicitSuggestion : String :=
  "An explicit CLI path was provided; ensure it exists and is executable."

def haosSuggestion : String :=
  "If running Home Assistant OS, install the CLI inside the core container (not only the SSH add-on) and make auth persistent with GH_CONFIG_DIR=/config/.gh_config."

def notFoundDetails (c : String) : String :=
  "Copilot CLI path " ++ c ++ " was not found or is not executable."

/-- `GitHubCopilotApiClient._check_cli_installed`.  The `Path()` parsing
failure branch (which can only trigger on unrepresentable path strings)
is not modelled: paths here are plain strings and `expandUser` is total. -/
def checkCliInstalled (env : CliEnv) : CliInstallationStatus :=
  let c := cliToCheck env
  let explicitReq := explicitRequested env
  let whichPath := env.whichResult c
  let explicitExisting : Option String :=
    match explicitPathOf env with
    | some p => if explicitReq && env.pathExists p then some p else none
    | none => none
  match explicitExisting with
  | some p =>
    if env.pathIsFile p && env.pathIsExec p then
      ⟨true, some p, "", []⟩
    else
      ⟨false, none,
        "Copilot CLI path " ++ p ++
          " exists but is not executable. Adjust permissions (e.g., chmod +x) and retry.",
        baseSuggestions ++ [explicitSuggestion]⟩
  | none =>
    match whichPath with
    | some p => ⟨true, some p, "", []⟩
    | none =>
      if explicitReq then
        ⟨false, none, notFoundDetails c,
          baseSuggestions ++ [explicitSuggestion, haosSuggestion]⟩
      else
        let commonPaths : List String :=
          [env.home ++ "/.local/bin/copilot",
           "/usr/local/bin/copilot",
           "/usr/bin/copilot"]
        match commonPaths.find? (fun p => env.pathIsFile p && env.pathIsExec p) with
        | some p => ⟨true, some p, "", []⟩
        | none =>
          ⟨false, none, notFoundDetails c,
            baseSuggestions ++ [haosSuggestion]⟩

end Api

namespace Request

/-! ## const.py model tables and the outgoing request shape -/

/-- `REASONING_MODELS` from const.py. -/
def REASONING_MODELS : List String := ["o1", "o1-mini", "o3-mini"]

/-- `CLAUDE_MODELS` from const.py. -/
def CLAUDE_MODELS : List String := ["claude-3.5-sonnet", "claude-3.7-sonnet"]

/-- `SUPPORTED_MODELS` from const.py. -/
def SUPPORTED_MODELS : List String :=
  ["gpt-4o", "gpt-4o-mini", "gpt-4", "gpt-4-turbo", "gpt-3.5-turbo",
   "o3-mini", "o1", "o1-mini", "claude-3.5-sonnet", "claude-3.7-sonnet"]

/-- Shape of an outgoing chat-completions request body: which token-limit
field is present, and the optional `temperature` field.  `clampLogged`
records whether a temperature-clamp log line was emitted while building
the request. -/
structure ChatRequest where
  model : String
  max_tokens : Option Nat
  max_completion_tokens : Option Nat
  temperature : Option ℚ
  clampLogged : Bool
  deriving DecidableEq

/-- Modelled from the spec: the request builder of the stateless-HTTP
client revision is absent from the source tree (only the model tables of
const.py remain), so its behaviour is taken from the spec — a
reasoning-model id omits `temperature` and uses `max_completion_tokens`
instead of `max_tokens`; a Claude-family model has its temperature
clamped into [0,1] with the clamp logged; every other model uses the
standard `max_tokens`/`temperature` fields. -/
def buildChatRequest (model : String) (maxTokens : Nat) (temperature : ℚ) :
    ChatRequest :=
  if model ∈ REASONING_MODELS then
    ⟨model, none, some maxTokens, none, false⟩
  else if model ∈ CLAUDE_MODELS then
    let t := max 0 (min 1 temperature)
    ⟨model, some maxTokens, none, some t, decide (t ≠ temperature)⟩
  else
    ⟨model, some maxTokens, none, some temperature, false⟩

end Request

/-! ## Theorems -/

theorem exchange_count_one (st : Auth.AuthState) (fetch : Auth.FetchOutcome)
    (tok : Auth.CopilotToken) (st2 : Auth.AuthState) (n : Nat)
    (h : Auth.exchangeCopilotToken st fetch = .ok (tok, st2, n)) : n = 1 := by
  cases fetch with
  | ok t e r =>
    simp [Auth.exchangeCopilotToken] at h
    exact h.2.2.symm
  | httpStatus s =>
    simp only [Auth.exchangeCopilotToken] at h
    split_ifs at h
  | netFail => simp [Auth.exchangeCopilotToken] at h

/-- C1: `get_copilot_token` serves the cached Copilot token unchanged,
with no token exchange, exactly while `now < expires_at - 60`; at or past
that bound a single exchange is performed and the fresh token is cached
and returned; and a token is served from the cache (zero exchanges) only
when `now < expires_at - 60` holds for it. -/
theorem C1_copilot_token_cache
    (st : Auth.AuthState) (now : Int) (fetch : Auth.FetchOutcome)
    (g : Auth.GitHubToken) (hg : st.githubToken = some g) :
    (∀ ct, st.copilotToken = some ct → now < ct.expires_at - 60 →
      Auth.get_copilot_token st now none fetch = .ok (ct, st, 0)) ∧
    (∀ ct t e r, st.copilotToken = some ct → ct.expires_at - 60 ≤ now →
      fetch = .ok t e r →
      Auth.get_copilot_token st now none fetch =
        .ok (⟨t, e, r.getD (e - 300)⟩,
             ⟨st.githubToken, some ⟨t, e, r.getD (e - 300)⟩⟩, 1)) ∧
    (∀ tok st2, Auth.get_copilot_token st now none fetch = .ok (tok, st2, 0) →
      ∃ ct, st.copilotToken = some ct ∧ tok = ct ∧ now < ct.expires_at - 60) := by
  refine ⟨?_, ?_, ?_⟩
  · intro ct hct hlt
    have hexp : ct.isExpired now = false := by
      simp [Auth.CopilotToken.isExpired]
      omega
    simp [Auth.get_copilot_token, hg, hct, hexp]
  · intro ct t e r hct hle hf
    have hexp : ct.isExpired now = true := by
      simp [Auth.CopilotToken.isExpired]
      omega
    simp [Auth.get_copilot_token, hg, hct, hexp, hf,
          Auth.exchangeCopilotToken]
  · intro tok st2 h
    cases hct : st.copilotToken with
    | none =>
      simp [Auth.get_copilot_token, hg, hct] at h
      exact absurd (exchange_count_one st fetch tok st2 0 h) (by simp)
    | some ct =>
      by_cases hexp : ct.isExpired now
      · simp [Auth.get_copilot_token, hg, hct, hexp] at h
        exact absurd (exchange_count_one st fetch tok st2 0 h) (by simp)
      · simp [Auth.get_copilot_token, hg, hct, hexp] at h
        refine ⟨ct, rfl, h.1.symm, ?_⟩
        simp [Auth.CopilotToken.isExpired] at hexp
        omega

/-- Witness for C1 at concrete inputs: a cached token with
`expires_at = 1000` is served unchanged at `now = 100`. -/
theorem C1_copilot_token_cache_witness :
    Auth.get_copilot_token
      ⟨some ⟨"gho_x", "bearer", "read:user"⟩, some ⟨"cpt_y", 1000, 700⟩⟩
      100 none .netFail =
    .ok (⟨"cpt_y", 1000, 700⟩,
         ⟨some ⟨"gho_x", "bearer", "read:user"⟩, some ⟨"cpt_y", 1000, 700⟩⟩,
         0) :=
  (C1_copilot_token_cache
      ⟨some ⟨"gho_x", "bearer", "read:user"⟩, some ⟨"cpt_y", 1000, 700⟩⟩
      100 .netFail ⟨"gho_x", "bearer", "read:user"⟩ rfl).1
    ⟨"cpt_y", 1000, 700⟩ rfl (by decide)

/-- C2 counterexample: the claim says a `slow_down` response increases the
polling interval, but the loop body takes the server-provided `interval`
field verbatim (`result.get("interval", current_interval + 5)`): a
`slow_down` response carrying `interval = 1` shrinks the interval from 5
to 1. -/
theorem C2_slow_down_counterexample :
    Auth.pollStep 5 (.errResp "slow_down" none (some 1)) =
      .cont 1 false ∧ (1 : Nat) < 5 := by
  exact ⟨rfl, by decide⟩

/-- C2 (amended): within the expiry window, `authorization_pending`
retries with the interval unchanged (counting one pending cycle);
`slow_down` sets the interval to the server-provided value when present
and otherwise to the current interval plus 5; `expired_token` raises the
timeout error; `access_denied` raises the denial error; any other error
code raises the generic auth error carrying the provider's
`error_description` (or the code itself); and the concrete sequence
pending, pending, access-token yields the token after exactly two pending
cycles without raising. -/
theorem C2_device_flow_polling (expiresIn elapsed interval : Nat)
    (rest : List Auth.PollResponse) (h : elapsed < expiresIn) :
    (∀ d ni,
      Auth.pollLoop expiresIn
          (.errResp "authorization_pending" d ni :: rest) elapsed interval =
        ((Auth.pollLoop expiresIn rest (elapsed + interval) interval).1,
         (Auth.pollLoop expiresIn rest (elapsed + interval) interval).2 + 1)) ∧
    (∀ d ni,
      Auth.pollLoop expiresIn (.errResp "slow_down" d ni :: rest)
          elapsed interval =
        Auth.pollLoop expiresIn rest (elapsed + interval)
          (ni.getD (interval + 5))) ∧
    (∀ d ni,
      Auth.pollLoop expiresIn (.errResp "expired_token" d ni :: rest)
          elapsed interval =
        (some (.error .timeout), 0)) ∧
    (∀ d ni,
      Auth.pollLoop expiresIn (.errResp "access_denied" d ni :: rest)
          elapsed interval =
        (some (.error .denied), 0)) ∧
    (∀ code d ni, code ≠ "authorization_pending" → code ≠ "slow_down" →
      code ≠ "expired_token" → code ≠ "access_denied" →
      Auth.pollLoop expiresIn (.errResp code d ni :: rest) elapsed interval =
        (some (.error (.authFail
          ("Authentication error: " ++ d.getD code))), 0)) ∧
    (Auth.pollLoop 900
        [.errResp "authorization_pending" none none,
         .errResp "authorization_pending" none none,
         .success "tok" "bearer" ""] 0 5 =
      (some (.ok ⟨"tok", "bearer", ""⟩), 2)) := by
  have hnle : ¬ expiresIn ≤ elapsed := Nat.not_le.mpr h
  refine ⟨?_, ?_, ?_, ?_, ?_, ?_⟩
  · intro d ni
    have hstep : Auth.pollStep interval
        (.errResp "authorization_pending" d ni) = .cont interval true := rfl
    simp [Auth.pollLoop, hnle, hstep]
  · intro d ni
    have hstep : Auth.pollStep interval (.errResp "slow_down" d ni) =
        .cont (ni.getD (interval + 5)) false := rfl
    simp [Auth.pollLoop, hnle, hstep]
  · intro d ni
    have hstep : Auth.pollStep interval (.errResp "expired_token" d ni) =
        .done (.error .timeout) := rfl
    simp [Auth.pollLoop, hnle, hstep]
  · intro d ni
    have hstep : Auth.pollStep interval (.errResp "access_denied" d ni) =
        .done (.error .denied) := rfl
    simp [Auth.pollLoop, hnle, hstep]
  · intro code d ni h1 h2 h3 h4
    have hstep : Auth.pollStep interval (.errResp code d ni) =
        .done (.error (.authFail ("Authentication error: " ++ d.getD code))) := by
      simp [Auth.pollStep, h1, h2, h3, h4]
    simp [Auth.pollLoop, hnle, hstep]
  · rfl

/-- Witness for C2 at concrete inputs: the pending-pending-token sequence
returns the token after exactly two pending cycles. -/
theorem C2_device_flow_polling_witness :
    Auth.pollLoop 900
        [.errResp "authorization_pending" none none,
         .errResp "authorization_pending" none none,
         .success "tok" "bearer" ""] 0 5 =
      (some (.ok ⟨"tok", "bearer", ""⟩), 2) :=
  (C2_device_flow_polling 900 0 5 [] (by decide)).2.2.2.2.2

/-- C10: an `aiohttp.ClientError` during an individual poll request never
terminates the loop — the request is logged and polling continues with
the interval unchanged — and a run consuming only transport failures can
only end with the timeout error once the window has elapsed (never a
token, denial, or provider error). -/
theorem C10_poll_transport_resilience (expiresIn : Nat) :
    (∀ elapsed interval rest, elapsed < expiresIn →
      Auth.pollLoop expiresIn (.netFail :: rest) elapsed interval =
        Auth.pollLoop expiresIn rest (elapsed + interval) interval) ∧
    (∀ rs elapsed interval,
      (∀ r ∈ rs, r = Auth.PollResponse.netFail) →
      ∀ res, (Auth.pollLoop expiresIn rs elapsed interval).1 = some res →
        res = .error .timeout) := by
  constructor
  · intro elapsed interval rest h
    have hnle : ¬ expiresIn ≤ elapsed := Nat.not_le.mpr h
    have hstep : Auth.pollStep interval Auth.PollResponse.netFail =
        .cont interval false := rfl
    simp [Auth.pollLoop, hnle, hstep]
  · intro rs
    induction rs with
    | nil =>
      intro elapsed interval _ res h
      by_cases hle : expiresIn ≤ elapsed
      · simp [Auth.pollLoop, hle] at h
        exact h.symm
      · simp [Auth.pollLoop, hle] at h
    | cons r rest ih =>
      intro elapsed interval hall res h
      by_cases hle : expiresIn ≤ elapsed
      · simp [Auth.pollLoop, hle] at h
        exact h.symm
      · have hr : r = Auth.PollResponse.netFail := hall r (List.mem_cons_self r rest)
        have hstep : Auth.pollStep interval Auth.PollResponse.netFail =
            .cont interval false := rfl
        rw [hr] at h
        simp [Auth.pollLoop, hle, hstep] at h
        exact ih (elapsed + interval) interval
          (fun x hx => hall x (List.mem_cons_of_mem r hx)) res h

/-- Witness for C10 at concrete inputs: one transport failure at
`elapsed = 0` continues the loop. -/
theorem C10_poll_transport_resilience_witness :
    Auth.pollLoop 900 [.netFail] 0 5 = Auth.pollLoop 900 [] 5 5 :=
  (C10_poll_transport_resilience 900).1 0 5 [] (by decide)

/-- C5: violated by the code.  `poll_for_token` executes
`LOGGER.debug("Token poll response: %s", result)` on every parsed
response, including the successful one, whose JSON body contains the
GitHub access token: the rendered log line contains the token value
verbatim. -/
theorem C5_token_logged_counterexample :
    ∃ line ∈ Auth.pollLogLines 900 [.success "gho_SECRET" "bearer" ""] 0 5,
      ∃ a b, line = a ++ "gho_SECRET" ++ b := by
  refine ⟨"Token poll response: access_token=gho_SECRET, token_type=bearer, scope=",
    ?_, "Token poll response: access_token=", ", token_type=bearer, scope=", rfl⟩
  have : Auth.pollLogLines 900 [.success "gho_SECRET" "bearer" ""] 0 5 =
      ["Token poll response: access_token=gho_SECRET, token_type=bearer, scope="] := rfl
  rw [this]
  exact List.mem_singleton.mpr rfl

/-! ### Sweep lemmas for the conversation adapter -/

theorem sweep_sessions_none (endOk : String → Bool) (ids : List String)
    (st : Conv.ConvState) (k : String) (h : alookup st.sessions k = none) :
    alookup (ids.foldl (Conv.sweepStep endOk) st).sessions k = none := by
  induction ids generalizing st with
  | nil => exact h
  | cons i rest ih =>
    simp only [List.foldl_cons]
    apply ih
    unfold Conv.sweepStep
    by_cases hi : endOk i
    · simp [hi, alookup_aerase, h]
    · simpa [hi] using h

theorem sweep_lastUsed_none (endOk : String → Bool) (ids : List String)
    (st : Conv.ConvState) (k : String) (h : alookup st.lastUsed k = none) :
    alookup (ids.foldl (Conv.sweepStep endOk) st).lastUsed k = none := by
  induction ids generalizing st with
  | nil => exact h
  | cons i rest ih =>
    simp only [List.foldl_cons]
    apply ih
    unfold Conv.sweepStep
    by_cases hi : endOk i
    · simp [hi, alookup_aerase, h]
    · simpa [hi] using h

theorem sweep_not_mem_unchanged (endOk : String → Bool) (ids : List String)
    (st : Conv.ConvState) (k : String) (hk : k ∉ ids) :
    alookup (ids.foldl (Conv.sweepStep endOk) st).sessions k =
      alookup st.sessions k ∧
    alookup (ids.foldl (Conv.sweepStep endOk) st).lastUsed k =
      alookup st.lastUsed k := by
  induction ids generalizing st with
  | nil => exact ⟨rfl, rfl⟩
  | cons i rest ih =>
    have hki : k ≠ i := fun hc => hk (hc ▸ List.mem_cons_self i rest)
    have hkr : k ∉ rest := fun hc => hk (List.mem_cons_of_mem i hc)
    simp only [List.foldl_cons]
    have step : alookup (Conv.sweepStep endOk st i).sessions k =
        alookup st.sessions k ∧
        alookup (Conv.sweepStep endOk st i).lastUsed k =
        alookup st.lastUsed k := by
      unfold Conv.sweepStep
      by_cases hi : endOk i
      · simp [hi, alookup_aerase, hki]
      · simp [hi]
    obtain ⟨e1, e2⟩ := ih (Conv.sweepStep endOk st i) hkr
    exact ⟨e1.trans step.1, e2.trans step.2⟩

theorem sweep_mem_removed (endOk : String → Bool) (k : String)
    (hok : endOk k = true) :
    ∀ (ids : List String) (st : Conv.ConvState), k ∈ ids →
    alookup (ids.foldl (Conv.sweepStep endOk) st).sessions k = none ∧
    alookup (ids.foldl (Conv.sweepStep endOk) st).lastUsed k = none := by
  intro ids
  induction ids with
  | nil =>
    intro st hk
    exact absurd hk (List.not_mem_nil k)
  | cons i rest ih =>
    intro st hk
    simp only [List.foldl_cons]
    rcases List.mem_cons.mp hk with hki | hkr
    · subst hki
      have step1 : alookup (Conv.sweepStep endOk st k).sessions k = none := by
        simp [Conv.sweepStep, hok, alookup_aerase_self]
      have step2 : alookup (Conv.sweepStep endOk st k).lastUsed k = none := by
        simp [Conv.sweepStep, hok, alookup_aerase_self]
      exact ⟨sweep_sessions_none endOk rest _ k step1,
             sweep_lastUsed_none endOk rest _ k step2⟩
    · exact ih (Conv.sweepStep endOk st i) hkr

theorem alookup_mem {α : Type} (l : List (String × α)) (k : String) (v : α)
    (h : alookup l k = some v) : (k, v) ∈ l := by
  induction l with
  | nil => simp [alookup] at h
  | cons p rest ih =>
    by_cases hp : p.1 = k
    · simp [alookup, hp] at h
      have : p = (k, v) := by
        cases p
        simp_all
      exact this ▸ List.mem_cons_self p rest
    · simp [alookup, hp] at h
      exact List.mem_cons_of_mem p (ih h)

theorem mem_expiredIds (now : Int) (st : Conv.ConvState) (k : String)
    (t : Int) (h : alookup st.lastUsed k = some t)
    (hexp : Conv.SESSION_TIMEOUT < now - t) :
    k ∈ Conv.expiredIds now st := by
  apply List.mem_map.mpr
  exact ⟨(k, t),
    List.mem_filter.mpr ⟨alookup_mem st.lastUsed k t h, decide_eq_true hexp⟩,
    rfl⟩

theorem not_mem_expiredIds (now : Int) (st : Conv.ConvState) (k : String)
    (h : ∀ p ∈ st.lastUsed, p.1 = k → now - p.2 ≤ Conv.SESSION_TIMEOUT) :
    k ∉ Conv.expiredIds now st := by
  intro hmem
  obtain ⟨p, hp, hk⟩ := List.mem_map.mp hmem
  obtain ⟨hmem2, hcond⟩ := List.mem_filter.mp hp
  exact absurd (of_decide_eq_true hcond) (not_lt.mpr (h p hmem2 hk))

theorem cleanup_sessions_none (clientOk : Bool) (endOk : String → Bool)
    (now : Int) (st : Conv.ConvState) (k : String)
    (h : alookup st.sessions k = none) :
    alookup (Conv.cleanupExpiredSessions clientOk endOk now st).sessions k =
      none := by
  unfold Conv.cleanupExpiredSessions
  split_ifs with h1 h2
  · exact h
  · exact h
  · exact sweep_sessions_none endOk _ st k h

/-- C6: on every turn, before the session lookup, the sweep removes from
both adapter maps every session whose last-used timestamp is *strictly
more* than 3600 seconds in the past (when its `async_end_session` call
succeeds), touches no entry that is not expired regardless of individual
end-call failures (the sweep is total — every exception is absorbed by
its `except` clause — so it cannot fail the turn), and a swept expired
session for the current conversation id is replaced by a freshly created
one rather than reused. -/
theorem C6_expired_session_sweep (endOk : String → Bool) (now : Int)
    (st : Conv.ConvState) :
    (∀ k t, alookup st.lastUsed k = some t →
      Conv.SESSION_TIMEOUT < now - t → endOk k = true →
      alookup (Conv.cleanupExpiredSessions true endOk now st).sessions k =
        none ∧
      alookup (Conv.cleanupExpiredSessions true endOk now st).lastUsed k =
        none) ∧
    (∀ clientOk k,
      (∀ p ∈ st.lastUsed, p.1 = k → now - p.2 ≤ Conv.SESSION_TIMEOUT) →
      alookup (Conv.cleanupExpiredSessions clientOk endOk now st).sessions k =
        alookup st.sessions k ∧
      alookup (Conv.cleanupExpiredSessions clientOk endOk now st).lastUsed k =
        alookup st.lastUsed k) ∧
    (∀ cid t sid2, alookup st.lastUsed cid = some t →
      Conv.SESSION_TIMEOUT < now - t → endOk cid = true →
      alookup st.sessions cid = none →
      (Conv.ensureSession true endOk now cid (.ok sid2) st).session =
        some sid2) := by
  refine ⟨?_, ?_, ?_⟩
  · intro k t hlyk hexp hok
    have hmem : k ∈ Conv.expiredIds now st :=
      mem_expiredIds now st k t hlyk hexp
    have hne : ¬ (Conv.expiredIds now st).isEmpty = true := by
      intro hc
      rw [List.isEmpty_iff] at hc
      rw [hc] at hmem
      exact List.not_mem_nil k hmem
    unfold Conv.cleanupExpiredSessions
    simp only [hne, if_false, Bool.not_true, ite_false]
    exact sweep_mem_removed endOk k hok _ st hmem
  · intro clientOk k hfresh
    have hnm : k ∉ Conv.expiredIds now st := not_mem_expiredIds now st k hfresh
    unfold Conv.cleanupExpiredSessions
    split_ifs with h1 h2
    · exact ⟨rfl, rfl⟩
    · exact ⟨rfl, rfl⟩
    · exact sweep_not_mem_unchanged endOk _ st k hnm
  · intro cid t sid2 hlyk hexp hok hnos
    have hnone : alookup
        (Conv.cleanupExpiredSessions true endOk now st).sessions cid = none :=
      cleanup_sessions_none true endOk now st cid hnos
    simp [Conv.ensureSession, hnone]

/-- Witness for C6 at a concrete state: a session last used 4000 seconds
ago is swept and both maps drop its entry. -/
theorem C6_expired_session_sweep_witness :
    alookup (Conv.cleanupExpiredSessions true (fun _ => true) 5000
      ⟨[("conv1", "sess1")], [("conv1", 1000)]⟩).sessions "conv1" = none ∧
    alookup (Conv.cleanupExpiredSessions true (fun _ => true) 5000
      ⟨[("conv1", "sess1")], [("conv1", 1000)]⟩).lastUsed "conv1" = none :=
  (C6_expired_session_sweep (fun _ => true) 5000
      ⟨[("conv1", "sess1")], [("conv1", 1000)]⟩).1
    "conv1" 1000 (by decide) (by decide) rfl

theorem ensure_session_some (clientOk : Bool) (endOk : String → Bool)
    (now : Int) (cid : String) (co : Except Conv.ErrKind String)
    (st : Conv.ConvState)
    (h : (Conv.ensureSession clientOk endOk now cid co st).errKind = none) :
    ∃ sid, (Conv.ensureSession clientOk endOk now cid co st).session =
      some sid := by
  cases h1 : alookup
      (Conv.cleanupExpiredSessions clientOk endOk now st).sessions cid with
  | some sid => exact ⟨sid, by simp [Conv.ensureSession, h1]⟩
  | none =>
    cases co with
    | ok sid => exact ⟨sid, by simp [Conv.ensureSession, h1]⟩
    | error k =>
      rw [show (Conv.ensureSession clientOk endOk now cid (.error k) st) =
        ⟨none, some k, Conv.cleanupExpiredSessions clientOk endOk now st⟩
        from by simp [Conv.ensureSession, h1]] at h
      simp at h

/-- C3: when the prompt send of a turn raises any of the three typed
client exceptions (authentication, communication, generic), `async_process`
pops both the session entry and the last-used timestamp for the
conversation id, and a subsequent turn for the same id takes the
fresh-creation branch: it returns and stores the newly created session. -/
theorem C3_failed_turn_resets (clientOk : Bool) (endOk : String → Bool)
    (now : Int) (cid : String) (co : Except Conv.ErrKind String)
    (k : Conv.ErrKind) (st : Conv.ConvState)
    (h : (Conv.ensureSession clientOk endOk now cid co st).errKind = none) :
    alookup (Conv.asyncProcess clientOk endOk now cid co
      (.apiErr k) st).state.sessions cid = none ∧
    alookup (Conv.asyncProcess clientOk endOk now cid co
      (.apiErr k) st).state.lastUsed cid = none ∧
    (∀ clientOk2 endOk2 now2 sid2,
      (Conv.ensureSession clientOk2 endOk2 now2 cid (.ok sid2)
        (Conv.asyncProcess clientOk endOk now cid co
          (.apiErr k) st).state).session = some sid2 ∧
      alookup (Conv.ensureSession clientOk2 endOk2 now2 cid (.ok sid2)
        (Conv.asyncProcess clientOk endOk now cid co
          (.apiErr k) st).state).state.sessions cid = some sid2) := by
  obtain ⟨sid, hs⟩ := ensure_session_some clientOk endOk now cid co st h
  have hstate : (Conv.asyncProcess clientOk endOk now cid co
      (.apiErr k) st).state =
      ⟨aerase (Conv.ensureSession clientOk endOk now cid co st).state.sessions
         cid,
       aerase (Conv.ensureSession clientOk endOk now cid co st).state.lastUsed
         cid⟩ := by
    simp [Conv.asyncProcess, h, hs]
  refine ⟨?_, ?_, ?_⟩
  · rw [hstate]
    exact alookup_aerase_self _ cid
  · rw [hstate]
    exact alookup_aerase_self _ cid
  · intro clientOk2 endOk2 now2 sid2
    have hnos : alookup (Conv.asyncProcess clientOk endOk now cid co
        (.apiErr k) st).state.sessions cid = none := by
      rw [hstate]
      exact alookup_aerase_self _ cid
    have hnone : alookup (Conv.cleanupExpiredSessions clientOk2 endOk2 now2
        (Conv.asyncProcess clientOk endOk now cid co
          (.apiErr k) st).state).sessions cid = none :=
      cleanup_sessions_none clientOk2 endOk2 now2 _ cid hnos
    constructor
    · simp [Conv.ensureSession, hnone]
    · simp [Conv.ensureSession, hnone, alookup_ainsert_self]

/-- Witness for C3 at a concrete state: a communication error during the
prompt send drops the stored session for the conversation id. -/
theorem C3_failed_turn_resets_witness :
    alookup (Conv.asyncProcess true (fun _ => true) 100 "conv1" (.ok "s2")
      (.apiErr .comm)
      ⟨[("conv1", "sess1")], [("conv1", 90)]⟩).state.sessions "conv1" =
      none :=
  (C3_failed_turn_resets true (fun _ => true) 100 "conv1" (.ok "s2") .comm
    ⟨[("conv1", "sess1")], [("conv1", 90)]⟩ (by decide)).1

/-- C4 counterexample: the claim puts connection failures during session
creation in the communication category, but `async_create_session` has no
`except ConnectionError` clause — a `ConnectionError` falls through to
`except Exception` and raises the generic client error. -/
theorem C4_creation_connection_counterexample :
    Api.classifyFault (.createExc .connectionExc) = Conv.ErrKind.generic ∧
    Conv.ErrKind.generic ≠ Conv.ErrKind.comm := by
  exact ⟨rfl, by decide⟩

/-- C4 (amended): the stateful client's failures map onto exactly three
exception classes — a missing CLI, any failure to start the CLI process
(file not found, permission denied, connection refused, anything else),
timeouts during session creation, and timeouts or connection failures
during the prompt send raise the communication error; an inability to
verify the CLI's authentication status or an unauthenticated CLI raises
the authentication error; an invalid session configuration, a connection
failure or unclassified exception during session creation, a missing
reply event, empty content, empty prompt, unknown session, or
unclassified send exception raise the generic client error. -/
theorem C4_error_taxonomy :
    (∀ e, Api.classifyFault (.startExc e) = Conv.ErrKind.comm) ∧
    Api.classifyFault .cliNotInstalled = Conv.ErrKind.comm ∧
    Api.classifyFault (.createExc .timeoutExc) = Conv.ErrKind.comm ∧
    Api.classifyFault (.sendExc .timeoutExc) = Conv.ErrKind.comm ∧
    Api.classifyFault (.sendExc .connectionExc) = Conv.ErrKind.comm ∧
    Api.classifyFault (.sendExc .connectionRefusedExc) = Conv.ErrKind.comm ∧
    (∀ e, Api.classifyFault (.authStatusExc e) = Conv.ErrKind.auth) ∧
    Api.classifyFault .notAuthenticated = Conv.ErrKind.auth ∧
    Api.classifyFault .noReplyEvent = Conv.ErrKind.generic ∧
    Api.classifyFault .emptyContent = Conv.ErrKind.generic ∧
    Api.classifyFault .emptyPrompt = Conv.ErrKind.generic ∧
    Api.classifyFault .sessionNotFound = Conv.ErrKind.generic ∧
    Api.classifyFault (.createExc .valueExc) = Conv.ErrKind.generic ∧
    Api.classifyFault (.createExc .connectionExc) = Conv.ErrKind.generic ∧
    (∀ s, Api.classifyFault (.createExc (.otherExc s)) =
      Conv.ErrKind.generic) ∧
    (∀ s, Api.classifyFault (.sendExc (.otherExc s)) =
      Conv.ErrKind.generic) := by
  refine ⟨fun e => ?_, rfl, rfl, rfl, rfl, rfl, fun e => rfl, rfl, rfl, rfl,
    rfl, rfl, rfl, rfl, fun s => rfl, fun s => rfl⟩
  cases e <;> rfl

/-- C9: `async_end_session` on a session id absent from the session map
returns normally and leaves the map untouched; consequently ending a
session twice equals ending it once — the second call is always a no-op
returning normally, whatever the two destroy outcomes. -/
theorem C9_end_session_noop :
    (∀ (sessions : List (String × String)) (sid : String) (f : Bool),
      alookup sessions sid = none →
      Api.asyncEndSession sessions sid f = (sessions, .ok ())) ∧
    (∀ (sessions : List (String × String)) (sid : String) (f1 f2 : Bool),
      Api.asyncEndSession (Api.asyncEndSession sessions sid f1).1 sid f2 =
        ((Api.asyncEndSession sessions sid f1).1, .ok ())) := by
  constructor
  · intro sessions sid f h
    simp [Api.asyncEndSession, h]
  · intro sessions sid f1 f2
    cases h : alookup sessions sid with
    | none => simp [Api.asyncEndSession, h]
    | some s =>
      have h1 : (Api.asyncEndSession sessions sid f1).1 =
          aerase sessions sid := by
        cases f1 <;> simp [Api.asyncEndSession, h]
      rw [h1]
      simp [Api.asyncEndSession, alookup_aerase_self]

/-- Witness for C9 at concrete inputs: ending an unknown session id is a
no-op. -/
theorem C9_end_session_noop_witness :
    Api.asyncEndSession [("s1", "ctx")] "s2" false =
      ([("s1", "ctx")], .ok ()) :=
  C9_end_session_noop.1 [("s1", "ctx")] "s2" false rfl

/-- C8 counterexample: with `cli_path` configured to a non-existent
`/nope/copilot` while a `copilot` executable is available on `PATH`, the
claim predicts the check falls back and reports installed via the `PATH`
candidate; the code instead returns early with not-installed as soon as
the explicit candidate fails, never consulting the later candidates. -/
theorem C8_no_fallback_counterexample :
    (Api.checkCliInstalled
      ⟨some "/nope/copilot", none,
       fun s => if s = "copilot" then some "/usr/bin/copilot" else none,
       fun _ => false, fun _ => false, fun _ => false, "/root"⟩).cli_installed
      = false ∧
    (Api.CliEnv.whichResult
      ⟨some "/nope/copilot", none,
       fun s => if s = "copilot" then some "/usr/bin/copilot" else none,
       fun _ => false, fun _ => false, fun _ => false, "/root"⟩) "copilot" =
      some "/usr/bin/copilot" := by
  exact ⟨by decide, by decide⟩

/-- C8 (amended): the check considers only the first non-empty candidate
among the configured `cli_path`, `COPILOT_CLI_PATH` and the bare name
`copilot` — the option takes priority over the environment variable,
which takes priority over the `PATH` lookup; the well-known locations are
consulted only when no explicit candidate was given and the `PATH` lookup
of `copilot` fails; an explicit candidate that succeeds (via `PATH`/which
or as an existing executable file) reports installed with its path, and
an explicit candidate that fails reports not-installed with diagnostic
details, without falling back to later candidates. -/
theorem C8_cli_resolution (env : Api.CliEnv) :
    (∀ c, env.cliPathOption = some c → pyStrip c ≠ "" →
      Api.cliToCheck env = pyStrip c) ∧
    (∀ c, Api.strippedNonempty env.cliPathOption = none →
      env.envCopilotCliPath = some c → pyStrip c ≠ "" →
      Api.cliToCheck env = pyStrip c) ∧
    (Api.strippedNonempty env.cliPathOption = none →
      Api.strippedNonempty env.envCopilotCliPath = none →
      Api.cliToCheck env = "copilot" ∧
      (∀ p, env.whichResult "copilot" = some p →
        Api.checkCliInstalled env = ⟨true, some p, "", []⟩) ∧
      (env.whichResult "copilot" = none →
        Api.checkCliInstalled env =
          (match ([env.home ++ "/.local/bin/copilot",
                   "/usr/local/bin/copilot",
                   "/usr/bin/copilot"].find?
                    (fun p => env.pathIsFile p && env.pathIsExec p)) with
           | some p => ⟨true, some p, "", []⟩
           | none =>
             ⟨false, none, Api.notFoundDetails "copilot",
              Api.baseSuggestions ++ [Api.haosSuggestion]⟩))) ∧
    (Api.explicitRequested env = true →
      env.whichResult (Api.cliToCheck env) = none →
      (∀ p, Api.explicitPathOf env = some p →
        ¬(env.pathExists p = true ∧ env.pathIsFile p = true ∧
          env.pathIsExec p = true)) →
      (Api.checkCliInstalled env).cli_installed = false ∧
      ((Api.checkCliInstalled env).error_details =
          Api.notFoundDetails (Api.cliToCheck env) ∨
        ∃ p, (Api.checkCliInstalled env).error_details =
          "Copilot CLI path " ++ p ++
            " exists but is not executable. Adjust permissions (e.g., chmod +x) and retry.") ∧
      (Api.checkCliInstalled env).suggestions ≠ []) ∧
    (∀ p, Api.explicitRequested env = true →
      env.whichResult (Api.cliToCheck env) = some p →
      (Api.explicitPathOf env = none ∨
        ∃ q, Api.explicitPathOf env = some q ∧ env.pathExists q = false) →
      Api.checkCliInstalled env = ⟨true, some p, "", []⟩) ∧
    (∀ q, Api.explicitRequested env = true →
      Api.explicitPathOf env = some q → env.pathExists q = true →
      env.pathIsFile q = true → env.pathIsExec q = true →
      Api.checkCliInstalled env = ⟨true, some q, "", []⟩) := by
  refine ⟨?_, ?_, ?_, ?_, ?_, ?_⟩
  · intro c hc htrim
    simp only [Api.cliToCheck, List.filterMap_cons, hc, Api.strippedNonempty,
      Option.bind_some]
    simp [htrim]
  · intro c h1 h2 h3
    simp only [Api.cliToCheck, List.filterMap_cons, h1, h2]
    simp only [Api.strippedNonempty, Option.bind_some]
    simp [h3]
  · intro h1 h2
    have hsc : Api.strippedNonempty (some "copilot") = some "copilot" := by
      decide
    have hc : Api.cliToCheck env = "copilot" := by
      simp only [Api.cliToCheck, List.filterMap_cons, h1, h2, hsc,
        List.filterMap_nil]
      rfl
    have hep : Api.explicitPathOf env = none := by
      simp [Api.explicitPathOf, hc]
    refine ⟨hc, ?_, ?_⟩
    · intro p hp
      simp [Api.checkCliInstalled, hep, hc, hp]
    · intro hp
      have her : Api.explicitRequested env = false := by
        simp only [Api.explicitRequested, List.filterMap_cons, h1, h2,
          List.filterMap_nil]
        rfl
      simp [Api.checkCliInstalled, hep, hc, hp, her]
  · intro he hw hexp
    cases hpo : Api.explicitPathOf env with
    | none =>
      have hres : Api.checkCliInstalled env =
          ⟨false, none, Api.notFoundDetails (Api.cliToCheck env),
           Api.baseSuggestions ++
             [Api.explicitSuggestion, Api.haosSuggestion]⟩ := by
        simp [Api.checkCliInstalled, hpo, hw, he]
      rw [hres]
      refine ⟨rfl, Or.inl rfl, ?_⟩
      simp [Api.baseSuggestions]
    | some p =>
      by_cases hex : env.pathExists p = true
      · have hnfe : ¬(env.pathIsFile p && env.pathIsExec p) = true := by
          intro hc
          obtain ⟨ha, hb⟩ := Bool.and_eq_true_iff.mp hc
          exact hexp p hpo ⟨hex, ha, hb⟩
        have hres : Api.checkCliInstalled env =
            ⟨false, none,
             "Copilot CLI path " ++ p ++
               " exists but is not executable. Adjust permissions (e.g., chmod +x) and retry.",
             Api.baseSuggestions ++ [Api.explicitSuggestion]⟩ := by
          simp [Api.checkCliInstalled, hpo, he, hex, hnfe]
        rw [hres]
        refine ⟨rfl, Or.inr ⟨p, rfl⟩, ?_⟩
        simp [Api.baseSuggestions]
      · have hexf : env.pathExists p = false := by
          simp at hex
          exact hex
        have hres : Api.checkCliInstalled env =
            ⟨false, none, Api.notFoundDetails (Api.cliToCheck env),
             Api.baseSuggestions ++
               [Api.explicitSuggestion, Api.haosSuggestion]⟩ := by
          simp [Api.checkCliInstalled, hpo, hexf, hw, he]
        rw [hres]
        refine ⟨rfl, Or.inl rfl, ?_⟩
        simp [Api.baseSuggestions]
  · intro p he hw hdisj
    rcases hdisj with hpo | ⟨q, hpo, hexf⟩
    · simp [Api.checkCliInstalled, hpo, hw]
    · simp [Api.checkCliInstalled, hpo, hexf, hw]
  · intro q he hpo hex hf hxc
    simp [Api.checkCliInstalled, hpo, he, hex, hf, hxc]

/-- Witness for C8 at a concrete environment: no explicit candidate and a
`copilot` found on `PATH` reports installed with that path. -/
theorem C8_cli_resolution_witness :
    Api.checkCliInstalled
      ⟨none, none,
       fun s => if s = "copilot" then some "/usr/bin/copilot" else none,
       fun _ => false, fun _ => false, fun _ => false, "/home/u"⟩ =
      ⟨true, some "/usr/bin/copilot", "", []⟩ :=
  ((C8_cli_resolution
      ⟨none, none,
       fun s => if s = "copilot" then some "/usr/bin/copilot" else none,
       fun _ => false, fun _ => false, fun _ => false, "/home/u"⟩).2.2.1
    rfl rfl).2.1 "/usr/bin/copilot" (by decide)

/-- C7: the request shape is selected by model family — a reasoning-model
id (`o1`, `o1-mini`, `o3-mini`) never carries a `temperature` field and
uses `max_completion_tokens` instead of `max_tokens`; a Claude-family
model has any temperature outside [0,1] clamped into [0,1] with the clamp
logged (and its temperature always lands in [0,1]); every other model
uses the standard `max_tokens`/`temperature` fields unchanged. -/
theorem C7_request_shape (m : String) (mt : Nat) (t : ℚ) :
    (m ∈ Request.REASONING_MODELS →
      Request.buildChatRequest m mt t = ⟨m, none, some mt, none, false⟩) ∧
    (m ∈ Request.CLAUDE_MODELS → (t < 0 ∨ 1 < t) →
      ∃ tc, Request.buildChatRequest m mt t =
        ⟨m, some mt, none, some tc, true⟩ ∧ 0 ≤ tc ∧ tc ≤ 1) ∧
    (m ∈ Request.CLAUDE_MODELS →
      ∃ tc, (Request.buildChatRequest m mt t).temperature = some tc ∧
        0 ≤ tc ∧ tc ≤ 1) ∧
    (m ∉ Request.REASONING_MODELS → m ∉ Request.CLAUDE_MODELS →
      Request.buildChatRequest m mt t =
        ⟨m, some mt, none, some t, false⟩) := by
  have hclaude_not_reasoning : m ∈ Request.CLAUDE_MODELS →
      m ∉ Request.REASONING_MODELS := by
    intro hm
    simp [Request.CLAUDE_MODELS] at hm
    rcases hm with rfl | rfl <;> decide
  refine ⟨?_, ?_, ?_, ?_⟩
  · intro hm
    simp [Request.buildChatRequest, hm]
  · intro hm ht
    have hr := hclaude_not_reasoning hm
    have hne : max 0 (min 1 t) ≠ t := by
      rcases ht with ht | ht
      · have h1 : min 1 t = t := min_eq_right (le_trans ht.le zero_le_one)
        rw [h1, max_eq_left ht.le]
        exact ne_of_gt ht
      · have h1 : min 1 t = 1 := min_eq_left ht.le
        rw [h1]
        rw [max_eq_right zero_le_one]
        exact ne_of_lt ht
    refine ⟨max 0 (min 1 t), ?_, le_max_left 0 _,
      max_le zero_le_one (min_le_left 1 t)⟩
    rw [Request.buildChatRequest, if_neg hr, if_pos hm]
    simp [decide_eq_true hne]
  · intro hm
    have hr := hclaude_not_reasoning hm
    refine ⟨max 0 (min 1 t), ?_, le_max_left 0 _,
      max_le zero_le_one (min_le_left 1 t)⟩
    rw [Request.buildChatRequest, if_neg hr, if_pos hm]
  · intro h1 h2
    simp [Request.buildChatRequest, h1, h2]

/-- Witness for C7 at a concrete model: a request for `o1` omits
`temperature` and uses `max_completion_tokens`. -/
theorem C7_request_shape_witness :
    Request.buildChatRequest "o1" 1000 (7 / 10) =
      ⟨"o1", none, some 1000, none, false⟩ :=
  (C7_request_shape "o1" 1000 (7 / 10)).1 (by decide)

end Copilot
